import Mathlib

/-!
Verification development for the cloudflare-go load-balancing module
(`load_balancing.go`).

The first part embeds the configuration data model: each Lean structure
mirrors the corresponding Go struct field for field.  Go `float64`/`float32`
values are modelled as rationals, Go maps as association lists, Go pointers
as `Option`, and `*time.Time` stamps as optional integers.

The second part embeds the traffic-steering decision engine that the
specification describes.  The client source declares only the configuration
model; the engine itself (rule evaluation, pool steering, pool selection,
session affinity) is not executable code in the repository, so those
definitions are modelled from the specification and are marked as such in
their doc comments.

The third part embeds the CRUD client operations of `load_balancing.go`;
HTTP transport is abstracted into an injected oracle and every function
additionally records the list of HTTP requests it issues.
-/

/-- Mirrors the Go struct `LoadBalancerOrigin` (`load_balancing.go`).
`Weight` (`float64`) is modelled as a rational. -/
structure LoadBalancerOrigin where
  Name : String
  Address : String
  Enabled : Bool
  Weight : ℚ
  Header : List (String × List String)
  deriving DecidableEq

/-- Mirrors the Go struct `LoadBalancerOriginSteering`: the origin-selection
sub-policy of a pool; the empty string defaults to weighted random. -/
structure LoadBalancerOriginSteering where
  Policy : String
  deriving DecidableEq

/-- Mirrors the Go struct `LoadBalancerLoadShedding`. -/
structure LoadBalancerLoadShedding where
  DefaultPercent : ℚ
  DefaultPolicy : String
  SessionPercent : ℚ
  SessionPolicy : String
  deriving DecidableEq

/-- Mirrors the Go struct `LoadBalancerPool`.  `Latitude`/`Longitude`
(`*float32`) become optional rationals. -/
structure LoadBalancerPool where
  ID : String
  CreatedOn : Option ℤ
  ModifiedOn : Option ℤ
  Description : String
  Name : String
  Enabled : Bool
  MinimumOrigins : ℕ
  Monitor : String
  Origins : List LoadBalancerOrigin
  NotificationEmail : String
  Latitude : Option ℚ
  Longitude : Option ℚ
  LoadShedding : Option LoadBalancerLoadShedding
  OriginSteering : Option LoadBalancerOriginSteering
  CheckRegions : List String
  deriving DecidableEq

/-- Mirrors the Go struct `LoadBalancerMonitor` (the Go field `Type` is
spelt `Type'` because `Type` is a Lean keyword). -/
structure LoadBalancerMonitor where
  ID : String
  CreatedOn : Option ℤ
  ModifiedOn : Option ℤ
  Type' : String
  Description : String
  Method : String
  Path : String
  Header : List (String × List String)
  Timeout : ℤ
  Retries : ℤ
  Interval : ℤ
  Port : ℕ
  ExpectedBody : String
  ExpectedCodes : String
  FollowRedirects : Bool
  AllowInsecure : Bool
  ProbeZone : String
  deriving DecidableEq

/-- Mirrors the Go struct `LoadBalancerFixedResponseData`: the payload a
rule can answer with instead of running routing logic. -/
structure LoadBalancerFixedResponseData where
  MessageBody : String
  StatusCode : ℤ
  ContentType : String
  Location : String
  deriving DecidableEq

/-- Mirrors the Go struct `LoadBalancerRuleOverridesSessionAffinityAttrs`:
the session-affinity attributes a rule may override.  As in the source, it
deliberately has no `DrainDuration` field. -/
structure LoadBalancerRuleOverridesSessionAffinityAttrs where
  SameSite : String
  Secure : String
  ZeroDowntimeFailover : String
  deriving DecidableEq

/-- Mirrors the Go struct `SessionAffinityAttributes`. -/
structure SessionAffinityAttributes where
  SameSite : String
  Secure : String
  DrainDuration : ℤ
  ZeroDowntimeFailover : String
  deriving DecidableEq

/-- Mirrors the Go struct `RandomSteering`; the Go map of pool weights is an
association list. -/
structure RandomSteering where
  DefaultWeight : ℚ
  PoolWeights : List (String × ℚ)
  deriving DecidableEq

/-- Mirrors the Go struct `LoadBalancerRuleOverrides`: the set of fields a
rule can replace.  Presence of an `omitempty` scalar field is encoded by it
being non-zero / non-empty, exactly as Go JSON marshalling treats it. -/
structure LoadBalancerRuleOverrides where
  Persistence : String
  PersistenceTTL : Option ℕ
  SessionAffinityAttrs : Option LoadBalancerRuleOverridesSessionAffinityAttrs
  TTL : ℕ
  SteeringPolicy : String
  FallbackPool : String
  DefaultPools : List String
  PoPPools : List (String × List String)
  RegionPools : List (String × List String)
  CountryPools : List (String × List String)
  RandomSteering : Option RandomSteering
  deriving DecidableEq

/-- Mirrors the Go struct `LoadBalancerRule`: rules run one after the other
in priority order (lowest `Priority` first) and disabled rules are skipped. -/
structure LoadBalancerRule where
  Overrides : LoadBalancerRuleOverrides
  Name : String
  Condition : String
  Priority : ℤ
  FixedResponse : Option LoadBalancerFixedResponseData
  Disabled : Bool
  Terminates : Bool
  deriving DecidableEq

/-- Mirrors the Go struct `LoadBalancer`. -/
structure LoadBalancer where
  ID : String
  CreatedOn : Option ℤ
  ModifiedOn : Option ℤ
  Description : String
  Name : String
  TTL : ℤ
  FallbackPool : String
  DefaultPools : List String
  RegionPools : List (String × List String)
  PopPools : List (String × List String)
  CountryPools : List (String × List String)
  Proxied : Bool
  Enabled : Option Bool
  Persistence : String
  PersistenceTTL : ℤ
  SessionAffinityAttributes : Option SessionAffinityAttributes
  Rules : List LoadBalancerRule
  RandomSteering : Option RandomSteering
  SteeringPolicy : String
  deriving DecidableEq

/-- Mirrors the Go struct `LoadBalancerOriginHealth` (`RTT` is a duration,
modelled as a rational number of seconds). -/
structure LoadBalancerOriginHealth where
  Healthy : Bool
  RTT : ℚ
  FailureReason : String
  ResponseCode : ℤ
  deriving DecidableEq

/-- Mirrors the Go struct `LoadBalancerPoolPopHealth`. -/
structure LoadBalancerPoolPopHealth where
  Healthy : Bool
  Origins : List (List (String × LoadBalancerOriginHealth))
  deriving DecidableEq

/-- Mirrors the Go struct `LoadBalancerPoolHealth`. -/
structure LoadBalancerPoolHealth where
  ID : String
  PopHealth : List (String × LoadBalancerPoolPopHealth)
  deriving DecidableEq

/-! ### Rule engine (spec-modelled)

The rule engine itself is not executable code in the client; the following
definitions are modelled from the specification, §4.3, over the rule type
declared in `load_balancing.go`. -/

/-- Replacement for an `omitempty` Go string field: an override string is
present exactly when it is non-empty. -/
def strOr (o b : String) : String := if o = "" then b else o

/-- Modelled from the spec: merging a rule's session-affinity-attribute
overrides into the current attributes.  `DrainDuration` has no counterpart
in the override struct and is inherited from the base.  A `nil` base
(`none`) behaves as the Go zero value of `SessionAffinityAttributes`. -/
def applySessionAffinityAttrs (base : Option SessionAffinityAttributes)
    (o : LoadBalancerRuleOverridesSessionAffinityAttrs) : SessionAffinityAttributes :=
  let b := base.getD ⟨"", "", 0, ""⟩
  { SameSite := strOr o.SameSite b.SameSite
    Secure := strOr o.Secure b.Secure
    DrainDuration := b.DrainDuration
    ZeroDowntimeFailover := strOr o.ZeroDowntimeFailover b.ZeroDowntimeFailover }

/-- Modelled from the spec: field-level merge of a rule's overrides into the
running effective configuration (present = replace, absent = inherit;
list/map fields replace wholesale when present). -/
def applyOverrides (cfg : LoadBalancer) (o : LoadBalancerRuleOverrides) : LoadBalancer :=
  { cfg with
    Persistence := strOr o.Persistence cfg.Persistence
    PersistenceTTL :=
      match o.PersistenceTTL with
      | some t => (t : ℤ)
      | none => cfg.PersistenceTTL
    SessionAffinityAttributes :=
      match o.SessionAffinityAttrs with
      | some a => some (applySessionAffinityAttrs cfg.SessionAffinityAttributes a)
      | none => cfg.SessionAffinityAttributes
    TTL := if o.TTL = 0 then cfg.TTL else (o.TTL : ℤ)
    SteeringPolicy := strOr o.SteeringPolicy cfg.SteeringPolicy
    FallbackPool := strOr o.FallbackPool cfg.FallbackPool
    DefaultPools := if o.DefaultPools = [] then cfg.DefaultPools else o.DefaultPools
    PopPools := if o.PoPPools = [] then cfg.PopPools else o.PoPPools
    RegionPools := if o.RegionPools = [] then cfg.RegionPools else o.RegionPools
    CountryPools := if o.CountryPools = [] then cfg.CountryPools else o.CountryPools
    RandomSteering :=
      match o.RandomSteering with
      | some r => some r
      | none => cfg.RandomSteering }

/-- Outcome of the rule-engine state machine of the spec:
`Scanning → (FixedResponse | Terminated | Exhausted)`. -/
inductive RuleOutcome where
  | fixedResponse (fr : LoadBalancerFixedResponseData)
  | terminated (cfg : LoadBalancer)
  | exhausted (cfg : LoadBalancer)
  deriving DecidableEq

/-- Modelled from the spec: the scanning loop of the rule engine over an
already-ordered rule list.  `ctx` is the request context, supplying the
evaluated boolean of each rule's opaque condition.  Disabled rules are
skipped; a matched rule merges its overrides; a matched `fixed_response`
rule short-circuits; a matched `terminates` rule freezes the configuration. -/
def scanRules (ctx : String → Bool) : LoadBalancer → List LoadBalancerRule → RuleOutcome
  | cfg, [] => .exhausted cfg
  | cfg, r :: rest =>
    if r.Disabled then scanRules ctx cfg rest
    else if ctx r.Condition then
      let cfg' := applyOverrides cfg r.Overrides
      match r.FixedResponse with
      | some fr => .fixedResponse fr
      | none => if r.Terminates then .terminated cfg' else scanRules ctx cfg' rest
    else scanRules ctx cfg rest

/-- Ascending lexicographic comparison of indexed elements by a key and then
by original index — the evaluation order of the spec (ascending priority,
original position as tie-break). -/
def lexLE {α : Type} {κ : Type} [LinearOrder κ] (key : α → κ) (a b : ℕ × α) : Prop :=
  key a.2 < key b.2 ∨ (key a.2 = key b.2 ∧ a.1 ≤ b.1)

instance {α : Type} {κ : Type} [LinearOrder κ] (key : α → κ) : DecidableRel (lexLE key) :=
  fun _ _ => by unfold lexLE; infer_instance

instance {α : Type} {κ : Type} [LinearOrder κ] (key : α → κ) :
    IsTotal (ℕ × α) (lexLE key) := by
  constructor
  intro a b
  unfold lexLE
  rcases lt_trichotomy (key a.2) (key b.2) with h | h | h
  · exact Or.inl (Or.inl h)
  · rcases Nat.le_total a.1 b.1 with h1 | h1
    · exact Or.inl (Or.inr ⟨h, h1⟩)
    · exact Or.inr (Or.inr ⟨h.symm, h1⟩)
  · exact Or.inr (Or.inl h)

instance {α : Type} {κ : Type} [LinearOrder κ] (key : α → κ) :
    IsTrans (ℕ × α) (lexLE key) := by
  constructor
  intro a b c hab hbc
  unfold lexLE at *
  rcases hab with h1 | ⟨h1, h1'⟩
  · rcases hbc with h2 | ⟨h2, _⟩
    · exact Or.inl (h1.trans h2)
    · exact Or.inl (h2 ▸ h1)
  · rcases hbc with h2 | ⟨h2, h2'⟩
    · exact Or.inl (h1 ▸ h2)
    · exact Or.inr ⟨h1.trans h2, h1'.trans h2'⟩

/-- Modelled from the spec: the evaluation order of a rule list — the rules
paired with their original indices, stably sorted ascending by `Priority`
with the original index as tie-break. -/
def sortRules (rs : List LoadBalancerRule) : List (ℕ × LoadBalancerRule) :=
  List.insertionSort (lexLE fun r => r.Priority) rs.enum

/-- The rule list in evaluation order, with the indices dropped. -/
def evalOrder (rs : List LoadBalancerRule) : List LoadBalancerRule :=
  (sortRules rs).map Prod.snd

/-- Modelled from the spec: full rule-engine evaluation — order the rule
list by ascending priority (ties by original index) and scan it. -/
def evalRules (ctx : String → Bool) (base : LoadBalancer)
    (rs : List LoadBalancerRule) : RuleOutcome :=
  scanRules ctx base (evalOrder rs)

/-- Modelled from the spec: the merge of the overrides of every matched
(non-disabled, condition-true) rule of a list, in the order given. -/
def mergeMatched (ctx : String → Bool) (base : LoadBalancer)
    (l : List LoadBalancerRule) : LoadBalancer :=
  l.foldl (fun c r =>
    if r.Disabled = false ∧ ctx r.Condition = true then applyOverrides c r.Overrides else c) base

/-! ### Health verdicts, pool selector and steering engine (spec-modelled) -/

/-- A per-origin health verdict feed (the fold of the health registry's
observations, §4.1): `true` means the origin's verdict is healthy. -/
abbrev HealthVerdict : Type := String → Bool

/-- Modelled from the spec: the healthy-origin threshold of a pool —
`minimum_origins`, defaulting to 1 when unset (zero). -/
def minOrigins (p : LoadBalancerPool) : ℕ :=
  if p.MinimumOrigins = 0 then 1 else p.MinimumOrigins

/-- The enabled origins of a pool whose health verdict is healthy. -/
def healthyEnabled (h : HealthVerdict) (p : LoadBalancerPool) : List LoadBalancerOrigin :=
  p.Origins.filter fun o => o.Enabled && h o.Name

/-- Modelled from the spec, §4.2: a pool is eligible iff its count of
enabled and healthy origins reaches `minimum_origins` (default 1). -/
def eligible (h : HealthVerdict) (p : LoadBalancerPool) : Bool :=
  minOrigins p ≤ (healthyEnabled h p).length

/-- Modelled from the spec: weighted-random pick.  `r` is the injected
random draw, expected in `[0, total weight)`; the walk keeps `r`
non-negative, so an origin of weight zero can never be the one chosen. -/
def pickWeighted (r : ℚ) : List LoadBalancerOrigin → Option LoadBalancerOrigin
  | [] => none
  | o :: t => if r < o.Weight then some o else pickWeighted (r - o.Weight) t

/-- Total weight of a list of origins. -/
def totalWeight (l : List LoadBalancerOrigin) : ℚ :=
  l.foldr (fun o acc => o.Weight + acc) 0

/-- Modelled from the spec, §4.2: origin selection within a pool.  With the
explicit-order origin-steering policy the first enabled and healthy origin
wins; otherwise selection is weighted random over the enabled healthy
origins (all-zero weights fall back to uniform selection).  `rng` is the
injected random source, expected in `[0, 1)`. -/
def selectOrigin (h : HealthVerdict) (rng : ℚ) (p : LoadBalancerPool) :
    Option LoadBalancerOrigin :=
  let cands := healthyEnabled h p
  if (p.OriginSteering.getD ⟨""⟩).Policy = "order" then cands.head?
  else
    let w := totalWeight cands
    if 0 < w then pickWeighted (rng * w) cands
    else cands.get? (Int.toNat ⌊rng * cands.length⌋)

/-- Terminal per-request failures of the steering engine, §7. -/
inductive SteerFailure where
  | noHealthyOrigin
  deriving DecidableEq

/-- The decision returned to the caller, §6. -/
inductive Decision where
  | fixedResponse (fr : LoadBalancerFixedResponseData)
  | shed
  | selected (pool : LoadBalancerPool) (origin : LoadBalancerOrigin)
  | failed (reason : SteerFailure)
  deriving DecidableEq

/-- Modelled from the spec, §4.4 selection: iterate the candidate pools in
order and delegate to the pool selector at the first eligible one; if no
candidate is eligible, fall back to `fallback_pool` with no eligibility
check; a fallback that yields no healthy origin is the terminal
`NoHealthyOrigin` failure — never a fabricated selection, never a retry. -/
def steerPools (h : HealthVerdict) (rng : ℚ) (cands : List LoadBalancerPool)
    (fb : LoadBalancerPool) : Decision :=
  match cands.find? (eligible h) with
  | some p =>
    match selectOrigin h rng p with
    | some o => .selected p o
    | none => .failed .noHealthyOrigin
  | none =>
    match selectOrigin h rng fb with
    | some o => .selected fb o
    | none => .failed .noHealthyOrigin

/-- Modelled from the spec, §4.4: the `dynamic_latency` candidate order —
the default pools stably sorted ascending by the given per-pool best
healthy-origin RTT, ties broken by listed order. -/
def dynamicLatencyOrder (rtt : String → ℚ) (pools : List String) : List String :=
  (List.insertionSort (lexLE rtt) pools.enum).map Prod.snd

/-- The RTT assignment with the values of pools `a` and `b` exchanged. -/
def swapRtt (rtt : String → ℚ) (a b : String) : String → ℚ :=
  fun s => if s = a then rtt b else if s = b then rtt a else rtt s

/-- The renaming that exchanges the pools `a` and `b`. -/
def swapName (a b : String) : String → String :=
  fun s => if s = a then b else if s = b then a else s

/-! ### Session affinity manager (spec-modelled, §4.5) -/

/-- Modelled from the spec: a session pin binding a client to a previously
selected pool and origin, with its issue and expiry instants (integral
seconds) and, once the origin has been drained, the drain instant. -/
structure SessionPin where
  Pool : String
  Origin : String
  IssuedAt : ℤ
  ExpiresAt : ℤ
  DrainedAt : Option ℤ
  deriving DecidableEq

/-- Modelled from the spec: `bind` creates a pin at time `t` that expires
`ttl` seconds later. -/
def SessionPin.bindPin (pool origin : String) (t ttl : ℤ) : SessionPin :=
  ⟨pool, origin, t, t + ttl, none⟩

/-- Modelled from the spec: `drain origin` at time `td` marks every pin
referencing that origin. -/
def SessionPin.drain (o : String) (td : ℤ) (p : SessionPin) : SessionPin :=
  if p.Origin = o then { p with DrainedAt := some td } else p

/-- Modelled from the spec: `resolve` at time `now` under the session's
`session_affinity_attributes`.  An expired pin is gone; a drained pin is
kept under `zero_downtime_failover = "sticky"` until `drain_duration`
seconds have elapsed since the drain, kept under `"sticky-uptodate"`
(subject to the external re-checks), and dropped immediately otherwise
(the `"none"` policy and the default). -/
def SessionPin.resolve (attrs : SessionAffinityAttributes) (now : ℤ)
    (p : SessionPin) : Option SessionPin :=
  if p.ExpiresAt < now then none
  else
    match p.DrainedAt with
    | none => some p
    | some td =>
      if attrs.ZeroDowntimeFailover = "sticky" then
        if td + attrs.DrainDuration < now then none else some p
      else if attrs.ZeroDowntimeFailover = "sticky-uptodate" then some p
      else none

/-! ### The CRUD client operations of `load_balancing.go`

The functions below mirror the Go methods line for line.  The HTTP layer
(`makeRequestContext` plus JSON unmarshalling) is abstracted into an
injected `Transport` oracle, and each function also returns the list of
HTTP requests it issued, so that "returns without issuing any HTTP
request" is a provable statement. -/

/-- Modelled from the spec: the route levels of a `ResourceContainer`
(scoping to user / zone / account); the type is declared outside the
included source file. -/
inductive RouteLevel where
  | user
  | zone
  | account
  deriving DecidableEq

/-- Modelled from the spec: a resource container scoping an API call. -/
structure ResourceContainer where
  Level : RouteLevel
  Identifier : String
  deriving DecidableEq

/-- Mirrors the Go struct `PaginationOptions` (declared outside the included
source file; only carried opaquely here). -/
structure PaginationOptions where
  Page : ℤ
  PerPage : ℤ
  deriving DecidableEq

/-- Modelled from the spec: `buildURI` appends pagination parameters to a
URI; its definition lives outside the included source file and none of the
claims depends on its output, so it is kept abstract up to the URI. -/
def buildURI (uri : String) (_ : PaginationOptions) : String := uri

/-- The errors of `load_balancing.go`: the three sentinel errors, the
invalid-resource-container error (carrying the level it reports), and the
two request-path failures. -/
inductive ClientError where
  | invalidResourceContainerAccess (level : RouteLevel)
  | missingPoolID
  | missingMonitorID
  | missingLoadBalancerID
  | requestError
  | unmarshalError
  deriving DecidableEq

/-- An HTTP request as issued by the client: method and URI. -/
structure HTTPRequest where
  Method : String
  URI : String
  deriving DecidableEq

/-- The oracle's answer for one HTTP request: transport failure, a body
that fails to unmarshal, or a typed successful payload. -/
inductive TransportResult where
  | failure
  | badJSON
  | pool (p : LoadBalancerPool)
  | pools (ps : List LoadBalancerPool)
  | monitor (m : LoadBalancerMonitor)
  | monitors (ms : List LoadBalancerMonitor)
  | lb (x : LoadBalancer)
  | lbs (xs : List LoadBalancer)
  | poolHealth (ph : LoadBalancerPoolHealth)
  deriving DecidableEq

/-- The injected HTTP layer. -/
abbrev Transport : Type := HTTPRequest → TransportResult

/-- Mirrors the Go struct `CreateLoadBalancerPoolParams`. -/
structure CreateLoadBalancerPoolParams where
  LoadBalancerPool : LoadBalancerPool
  deriving DecidableEq

/-- Mirrors the Go struct `ListLoadBalancerPoolParams`. -/
structure ListLoadBalancerPoolParams where
  PaginationOptions : PaginationOptions
  deriving DecidableEq

/-- Mirrors the Go struct `UpdateLoadBalancerPoolParams` (whose field is
named `LoadBalancer` in the source even though it holds a pool). -/
structure UpdateLoadBalancerPoolParams where
  LoadBalancer : LoadBalancerPool
  deriving DecidableEq

/-- Mirrors the Go struct `CreateLoadBalancerMonitorParams`. -/
structure CreateLoadBalancerMonitorParams where
  LoadBalancerMonitor : LoadBalancerMonitor
  deriving DecidableEq

/-- Mirrors the Go struct `ListLoadBalancerMonitorParams`. -/
structure ListLoadBalancerMonitorParams where
  PaginationOptions : PaginationOptions
  deriving DecidableEq

/-- Mirrors the Go struct `UpdateLoadBalancerMonitorParams`. -/
structure UpdateLoadBalancerMonitorParams where
  LoadBalancerMonitor : LoadBalancerMonitor
  deriving DecidableEq

/-- Mirrors the Go struct `CreateLoadBalancerParams`. -/
structure CreateLoadBalancerParams where
  LoadBalancer : LoadBalancer
  deriving DecidableEq

/-- Mirrors the Go struct `ListLoadBalancerParams`. -/
structure ListLoadBalancerParams where
  PaginationOptions : PaginationOptions
  deriving DecidableEq

/-- Mirrors the Go struct `UpdateLoadBalancerParams`. -/
structure UpdateLoadBalancerParams where
  LoadBalancer : LoadBalancer
  deriving DecidableEq

/-- The Go zero value of `LoadBalancerPool`. -/
def zeroPool : LoadBalancerPool :=
  ⟨"", none, none, "", "", false, 0, "", [], "", none, none, none, none, []⟩

/-- The Go zero value of `LoadBalancerMonitor`. -/
def zeroMonitor : LoadBalancerMonitor :=
  ⟨"", none, none, "", "", "", "", [], 0, 0, 0, 0, "", "", false, false, ""⟩

/-- The Go zero value of `LoadBalancer`. -/
def zeroLB : LoadBalancer :=
  ⟨"", none, none, "", "", 0, "", [], [], [], [], false, none, "", 0, none, [], none, ""⟩

/-- The Go zero value of `LoadBalancerPoolHealth`. -/
def zeroPoolHealth : LoadBalancerPoolHealth := ⟨"", []⟩

/-- A Go-style return: the result value together with an optional error,
plus the trace of HTTP requests the call issued. -/
abbrev GoReturn (α : Type) : Type := (α × Option ClientError) × List HTTPRequest

/-- Issues one request against the transport and interprets the reply with
the given decoder, returning the Go zero value on a failed request or on a
payload of the wrong shape (unmarshal error). -/
def runRequest {α : Type} (t : Transport) (req : HTTPRequest) (zero : α)
    (decode : TransportResult → Option α) : GoReturn α :=
  match t req with
  | .failure => ((zero, some .requestError), [req])
  | other =>
    match decode other with
    | some a => ((a, none), [req])
    | none => ((zero, some .unmarshalError), [req])

/-- Mirrors the Go method `CreateLoadBalancerPool`. -/
def CreateLoadBalancerPool (t : Transport) (rc : ResourceContainer)
    (params : CreateLoadBalancerPoolParams) : GoReturn LoadBalancerPool :=
  if rc.Level = .zone then
    ((zeroPool, some (.invalidResourceContainerAccess .zone)), [])
  else
    let uri := if rc.Level = .user then "/user/load_balancers/pools"
      else "/accounts/" ++ rc.Identifier ++ "/load_balancers/pools"
    runRequest t ⟨"POST", uri⟩ zeroPool
      (fun r => match r with | .pool p => some p | _ => none)

/-- Mirrors the Go method `ListLoadBalancerPools`. -/
def ListLoadBalancerPools (t : Transport) (rc : ResourceContainer)
    (params : ListLoadBalancerPoolParams) : GoReturn (List LoadBalancerPool) :=
  if rc.Level = .zone then
    (([], some (.invalidResourceContainerAccess .zone)), [])
  else
    let uri := if rc.Level = .user then "/user/load_balancers/pools"
      else "/accounts/" ++ rc.Identifier ++ "/load_balancers/pools"
    runRequest t ⟨"GET", buildURI uri params.PaginationOptions⟩ []
      (fun r => match r with | .pools ps => some ps | _ => none)

/-- Mirrors the Go method `GetLoadBalancerPool`. -/
def GetLoadBalancerPool (t : Transport) (rc : ResourceContainer)
    (poolID : String) : GoReturn LoadBalancerPool :=
  if rc.Level = .zone then
    ((zeroPool, some (.invalidResourceContainerAccess .zone)), [])
  else if poolID = "" then
    ((zeroPool, some .missingPoolID), [])
  else
    let uri := if rc.Level = .user then "/user/load_balancers/pools/" ++ poolID
      else "/accounts/" ++ rc.Identifier ++ "/load_balancers/pools/" ++ poolID
    runRequest t ⟨"GET", uri⟩ zeroPool
      (fun r => match r with | .pool p => some p | _ => none)

/-- Mirrors the Go method `DeleteLoadBalancerPool` (result type is just the
error, so the payload is `Unit`). -/
def DeleteLoadBalancerPool (t : Transport) (rc : ResourceContainer)
    (poolID : String) : GoReturn Unit :=
  if rc.Level = .zone then
    (((), some (.invalidResourceContainerAccess .zone)), [])
  else if poolID = "" then
    (((), some .missingPoolID), [])
  else
    let uri := if rc.Level = .user then "/user/load_balancers/pools/" ++ poolID
      else "/accounts/" ++ rc.Identifier ++ "/load_balancers/pools/" ++ poolID
    match t ⟨"DELETE", uri⟩ with
    | .failure => (((), some .requestError), [⟨"DELETE", uri⟩])
    | _ => (((), none), [⟨"DELETE", uri⟩])

/-- Mirrors the Go method `UpdateLoadBalancerPool`. -/
def UpdateLoadBalancerPool (t : Transport) (rc : ResourceContainer)
    (params : UpdateLoadBalancerPoolParams) : GoReturn LoadBalancerPool :=
  if rc.Level = .zone then
    ((zeroPool, some (.invalidResourceContainerAccess .zone)), [])
  else if params.LoadBalancer.ID = "" then
    ((zeroPool, some .missingPoolID), [])
  else
    let uri := if rc.Level = .user then
        "/user/load_balancers/pools/" ++ params.LoadBalancer.ID
      else "/accounts/" ++ rc.Identifier ++ "/load_balancers/pools/" ++ params.LoadBalancer.ID
    runRequest t ⟨"PUT", uri⟩ zeroPool
      (fun r => match r with | .pool p => some p | _ => none)

/-- Mirrors the Go method `CreateLoadBalancerMonitor`. -/
def CreateLoadBalancerMonitor (t : Transport) (rc : ResourceContainer)
    (params : CreateLoadBalancerMonitorParams) : GoReturn LoadBalancerMonitor :=
  if rc.Level = .zone then
    ((zeroMonitor, some (.invalidResourceContainerAccess .zone)), [])
  else
    let uri := if rc.Level = .user then "/user/load_balancers/monitors"
      else "/accounts/" ++ rc.Identifier ++ "/load_balancers/monitors"
    runRequest t ⟨"POST", uri⟩ zeroMonitor
      (fun r => match r with | .monitor m => some m | _ => none)

/-- Mirrors the Go method `ListLoadBalancerMonitors`. -/
def ListLoadBalancerMonitors (t : Transport) (rc : ResourceContainer)
    (params : ListLoadBalancerMonitorParams) : GoReturn (List LoadBalancerMonitor) :=
  if rc.Level = .zone then
    (([], some (.invalidResourceContainerAccess .zone)), [])
  else
    let uri := if rc.Level = .user then "/user/load_balancers/monitors"
      else "/accounts/" ++ rc.Identifier ++ "/load_balancers/monitors"
    runRequest t ⟨"GET", buildURI uri params.PaginationOptions⟩ []
      (fun r => match r with | .monitors ms => some ms | _ => none)

/-- Mirrors the Go method `GetLoadBalancerMonitor`. -/
def GetLoadBalancerMonitor (t : Transport) (rc : ResourceContainer)
    (monitorID : String) : GoReturn LoadBalancerMonitor :=
  if rc.Level = .zone then
    ((zeroMonitor, some (.invalidResourceContainerAccess .zone)), [])
  else if monitorID = "" then
    ((zeroMonitor, some .missingMonitorID), [])
  else
    let uri := if rc.Level = .user then "/user/load_balancers/monitors/" ++ monitorID
      else "/accounts/" ++ rc.Identifier ++ "/load_balancers/monitors/" ++ monitorID
    runRequest t ⟨"GET", uri⟩ zeroMonitor
      (fun r => match r with | .monitor m => some m | _ => none)

/-- Mirrors the Go method `DeleteLoadBalancerMonitor`. -/
def DeleteLoadBalancerMonitor (t : Transport) (rc : ResourceContainer)
    (monitorID : String) : GoReturn Unit :=
  if rc.Level = .zone then
    (((), some (.invalidResourceContainerAccess .zone)), [])
  else if monitorID = "" then
    (((), some .missingMonitorID), [])
  else
    let uri := if rc.Level = .user then "/user/load_balancers/monitors/" ++ monitorID
      else "/accounts/" ++ rc.Identifier ++ "/load_balancers/monitors/" ++ monitorID
    match t ⟨"DELETE", uri⟩ with
    | .failure => (((), some .requestError), [⟨"DELETE", uri⟩])
    | _ => (((), none), [⟨"DELETE", uri⟩])

/-- Mirrors the Go method `UpdateLoadBalancerMonitor`. -/
def UpdateLoadBalancerMonitor (t : Transport) (rc : ResourceContainer)
    (params : UpdateLoadBalancerMonitorParams) : GoReturn LoadBalancerMonitor :=
  if rc.Level = .zone then
    ((zeroMonitor, some (.invalidResourceContainerAccess .zone)), [])
  else if params.LoadBalancerMonitor.ID = "" then
    ((zeroMonitor, some .missingMonitorID), [])
  else
    let uri := if rc.Level = .user then
        "/user/load_balancers/monitors/" ++ params.LoadBalancerMonitor.ID
      else "/accounts/" ++ rc.Identifier ++ "/load_balancers/monitors/"
        ++ params.LoadBalancerMonitor.ID
    runRequest t ⟨"PUT", uri⟩ zeroMonitor
      (fun r => match r with | .monitor m => some m | _ => none)

/-- Mirrors the Go method `CreateLoadBalancer`. -/
def CreateLoadBalancer (t : Transport) (rc : ResourceContainer)
    (params : CreateLoadBalancerParams) : GoReturn LoadBalancer :=
  if rc.Level ≠ .zone then
    ((zeroLB, some (.invalidResourceContainerAccess rc.Level)), [])
  else
    let uri := "/zones/" ++ rc.Identifier ++ "/load_balancers"
    runRequest t ⟨"POST", uri⟩ zeroLB
      (fun r => match r with | .lb x => some x | _ => none)

/-- Mirrors the Go method `ListLoadBalancers`. -/
def ListLoadBalancers (t : Transport) (rc : ResourceContainer)
    (params : ListLoadBalancerParams) : GoReturn (List LoadBalancer) :=
  if rc.Level ≠ .zone then
    (([], some (.invalidResourceContainerAccess rc.Level)), [])
  else
    let uri := buildURI ("/zones/" ++ rc.Identifier ++ "/load_balancers")
      params.PaginationOptions
    runRequest t ⟨"GET", uri⟩ []
      (fun r => match r with | .lbs xs => some xs | _ => none)

/-- Mirrors the Go method `GetLoadBalancer`. -/
def GetLoadBalancer (t : Transport) (rc : ResourceContainer)
    (loadbalancerID : String) : GoReturn LoadBalancer :=
  if rc.Level ≠ .zone then
    ((zeroLB, some (.invalidResourceContainerAccess rc.Level)), [])
  else if loadbalancerID = "" then
    ((zeroLB, some .missingLoadBalancerID), [])
  else
    let uri := "/zones/" ++ rc.Identifier ++ "/load_balancers/" ++ loadbalancerID
    runRequest t ⟨"GET", uri⟩ zeroLB
      (fun r => match r with | .lb x => some x | _ => none)

/-- Mirrors the Go method `DeleteLoadBalancer`. -/
def DeleteLoadBalancer (t : Transport) (rc : ResourceContainer)
    (loadbalancerID : String) : GoReturn Unit :=
  if rc.Level ≠ .zone then
    (((), some (.invalidResourceContainerAccess rc.Level)), [])
  else if loadbalancerID = "" then
    (((), some .missingLoadBalancerID), [])
  else
    let uri := "/zones/" ++ rc.Identifier ++ "/load_balancers/" ++ loadbalancerID
    match t ⟨"DELETE", uri⟩ with
    | .failure => (((), some .requestError), [⟨"DELETE", uri⟩])
    | _ => (((), none), [⟨"DELETE", uri⟩])

/-- Mirrors the Go method `UpdateLoadBalancer`. -/
def UpdateLoadBalancer (t : Transport) (rc : ResourceContainer)
    (params : UpdateLoadBalancerParams) : GoReturn LoadBalancer :=
  if rc.Level ≠ .zone then
    ((zeroLB, some (.invalidResourceContainerAccess rc.Level)), [])
  else if params.LoadBalancer.ID = "" then
    ((zeroLB, some .missingLoadBalancerID), [])
  else
    let uri := "/zones/" ++ rc.Identifier ++ "/load_balancers/" ++ params.LoadBalancer.ID
    runRequest t ⟨"PUT", uri⟩ zeroLB
      (fun r => match r with | .lb x => some x | _ => none)

/-- Mirrors the Go method `GetLoadBalancerPoolHealth`. -/
def GetLoadBalancerPoolHealth (t : Transport) (rc : ResourceContainer)
    (poolID : String) : GoReturn LoadBalancerPoolHealth :=
  if rc.Level = .zone then
    ((zeroPoolHealth, some (.invalidResourceContainerAccess .zone)), [])
  else if poolID = "" then
    ((zeroPoolHealth, some .missingPoolID), [])
  else
    let uri := if rc.Level = .user then
        "/user/load_balancers/pools/" ++ poolID ++ "/health"
      else "/accounts/" ++ rc.Identifier ++ "/load_balancers/pools/" ++ poolID ++ "/health"
    runRequest t ⟨"GET", uri⟩ zeroPoolHealth
      (fun r => match r with | .poolHealth ph => some ph | _ => none)

/-- The `drain_duration` carried by a load balancer's session-affinity
attributes (the Go zero value 0 when the attributes are absent). -/
def LoadBalancer.drainDuration (cfg : LoadBalancer) : ℤ :=
  match cfg.SessionAffinityAttributes with
  | some a => a.DrainDuration
  | none => 0

/-! ### Auxiliary definitions used by the theorems below -/

/-- Reindexing that skips the slot `i`: indices below `i` are kept, the
rest move up by one.  Removing the element at index `i` from a list and
re-enumerating is the same as dropping its entry and reindexing with this
map. -/
def idxShift {α : Type} (i : ℕ) : ℕ × α → ℕ × α :=
  fun p => (if p.1 < i then p.1 else p.1 + 1, p.2)

/-- An empty override set (the Go zero value of `LoadBalancerRuleOverrides`). -/
def noOverrides : LoadBalancerRuleOverrides :=
  ⟨"", none, none, 0, "", "", [], [], [], [], none⟩

/-- Sample rule builder for concrete witnesses. -/
def mkRule (name : String) (pri : ℤ) (cond : String) (dis term : Bool)
    (fr : Option LoadBalancerFixedResponseData) : LoadBalancerRule :=
  ⟨noOverrides, name, cond, pri, fr, dis, term⟩

/-- Sample origin builder for concrete witnesses. -/
def mkOrigin (n : String) (en : Bool) (w : ℚ) : LoadBalancerOrigin :=
  ⟨n, n, en, w, []⟩

/-- Sample pool builder for concrete witnesses. -/
def mkPool (n : String) (minO : ℕ) (origins : List LoadBalancerOrigin)
    (steering : Option LoadBalancerOriginSteering) : LoadBalancerPool :=
  ⟨n, none, none, "", n, true, minO, "", origins, "", none, none, none, steering, []⟩

/-! ### Generic lemmas about `List.insertionSort` -/

section SortLemmas

variable {α : Type} {β : Type} (le : α → α → Prop) [DecidableRel le]

theorem orderedInsert_eq_cons (x : α) (l : List α) (h : ∀ z ∈ l, le x z) :
    List.orderedInsert le x l = x :: l := by
  cases l with
  | nil => rfl
  | cons z t => simp [List.orderedInsert, h z (by simp)]

theorem filter_orderedInsert_neg (p : α → Bool) (x : α) (hx : p x = false) (l : List α) :
    (List.orderedInsert le x l).filter p = l.filter p := by
  induction l with
  | nil => simp [hx]
  | cons y t ih =>
    by_cases h : le x y
    · simp [List.orderedInsert, h, hx]
    · simp only [List.orderedInsert, if_neg h, List.filter_cons]
      cases hpy : p y <;> simp [ih]

theorem filter_orderedInsert_pos [IsTotal α le] [IsTrans α le]
    (p : α → Bool) (x : α) (hx : p x = true) (l : List α) (hs : List.Sorted le l) :
    (List.orderedInsert le x l).filter p = List.orderedInsert le x (l.filter p) := by
  induction l with
  | nil => simp [hx]
  | cons y t ih =>
    have hyt : ∀ z ∈ t, le y z := List.rel_of_sorted_cons hs
    have ht : List.Sorted le t := List.sorted_cons.mp hs |>.2
    by_cases h : le x y
    · rw [List.orderedInsert_of_le le t h]
      cases hpy : p y with
      | true =>
        simp only [List.filter_cons, hx, hpy, if_true]
        rw [List.orderedInsert_of_le le (t.filter p) h]
      | false =>
        simp only [List.filter_cons, hx, hpy, if_true, if_false, Bool.false_eq_true]
        rw [orderedInsert_eq_cons le x (t.filter p)]
        intro z hz
        have hzt : z ∈ t := List.mem_of_mem_filter hz
        exact Trans.trans h (hyt z hzt)
    · simp only [List.orderedInsert, if_neg h, List.filter_cons]
      cases hpy : p y with
      | true => simp [List.orderedInsert, h, ih ht]
      | false => exact ih ht

theorem filter_insertionSort [IsTotal α le] [IsTrans α le]
    (p : α → Bool) (l : List α) :
    (List.insertionSort le l).filter p = List.insertionSort le (l.filter p) := by
  induction l with
  | nil => rfl
  | cons a t ih =>
    cases hpa : p a with
    | true =>
      simp only [List.insertionSort, List.filter_cons, hpa, if_pos rfl]
      rw [filter_orderedInsert_pos le p a hpa _ (List.sorted_insertionSort le t), ih]
    | false =>
      simp only [List.insertionSort, List.filter_cons, hpa]
      rw [filter_orderedInsert_neg le p a hpa, ih]
      simp

theorem map_orderedInsert₂ (le' : β → β → Prop) [DecidableRel le'] (f : α → β)
    (hf : ∀ a b, le a b ↔ le' (f a) (f b)) (x : α) (l : List α) :
    (List.orderedInsert le x l).map f = List.orderedInsert le' (f x) (l.map f) := by
  induction l with
  | nil => rfl
  | cons y t ih =>
    by_cases h : le x y
    · simp [List.orderedInsert, h, (hf x y).mp h]
    · have h' : ¬ le' (f x) (f y) := fun hc => h ((hf x y).mpr hc)
      simp [List.orderedInsert, h, h', ih]

theorem map_insertionSort₂ (le' : β → β → Prop) [DecidableRel le'] (f : α → β)
    (hf : ∀ a b, le a b ↔ le' (f a) (f b)) (l : List α) :
    (List.insertionSort le l).map f = List.insertionSort le' (l.map f) := by
  induction l with
  | nil => rfl
  | cons a t ih =>
    simp only [List.insertionSort, List.map_cons]
    rw [map_orderedInsert₂ le le' f hf, ih]

end SortLemmas

/-! ### Lemmas about the rule-engine scan and evaluation order -/

theorem scanRules_filter_disabled (ctx : String → Bool) (cfg : LoadBalancer)
    (l : List LoadBalancerRule) :
    scanRules ctx cfg l = scanRules ctx cfg (l.filter fun r => !r.Disabled) := by
  induction l generalizing cfg with
  | nil => rfl
  | cons r t ih =>
    cases hd : r.Disabled with
    | true => simp [scanRules, hd, List.filter_cons, ih]
    | false =>
      by_cases hc : ctx r.Condition
      · cases hf : r.FixedResponse with
        | some fr => simp [scanRules, hd, hc, hf, List.filter_cons]
        | none =>
          cases ht : r.Terminates with
          | true => simp [scanRules, hd, hc, hf, ht, List.filter_cons]
          | false => simp [scanRules, hd, hc, hf, ht, List.filter_cons, ih]
      · simp [scanRules, hd, hc, List.filter_cons, ih]

theorem map_idxShift_enumFrom_of_le {α : Type} (i : ℕ) :
    ∀ (l : List α) (n : ℕ), n + l.length ≤ i →
      (List.enumFrom n l).map (idxShift i) = List.enumFrom n l := by
  intro l
  induction l with
  | nil => intro n _; rfl
  | cons a t ih =>
    intro n h
    simp only [List.enumFrom, List.map_cons]
    have h1 : n < i := by simp at h; omega
    have h2 : n + 1 + t.length ≤ i := by simp at h; omega
    rw [ih (n + 1) h2]
    simp [idxShift, h1]

theorem map_idxShift_enumFrom_of_ge {α : Type} (i : ℕ) :
    ∀ (l : List α) (n : ℕ), i ≤ n →
      (List.enumFrom n l).map (idxShift i) = List.enumFrom (n + 1) l := by
  intro l
  induction l with
  | nil => intro n _; rfl
  | cons a t ih =>
    intro n h
    simp only [List.enumFrom, List.map_cons]
    have h1 : ¬ n < i := by omega
    rw [ih (n + 1) (by omega)]
    simp [idxShift, h1]

theorem lexLE_idxShift {α : Type} {κ : Type} [LinearOrder κ] (key : α → κ) (i : ℕ)
    (a b : ℕ × α) : lexLE key a b ↔ lexLE key (idxShift i a) (idxShift i b) := by
  have h : ((if a.1 < i then a.1 else a.1 + 1) ≤ (if b.1 < i then b.1 else b.1 + 1))
      ↔ a.1 ≤ b.1 := by split_ifs <;> omega
  unfold lexLE idxShift
  simp only
  rw [h]

theorem evalRules_erase_disabled (ctx : String → Bool) (base : LoadBalancer)
    (l₁ : List LoadBalancerRule) (x : LoadBalancerRule) (l₂ : List LoadBalancerRule)
    (hx : x.Disabled = true) :
    evalRules ctx base (l₁ ++ x :: l₂) = evalRules ctx base (l₁ ++ l₂) := by
  have le := lexLE fun r : LoadBalancerRule => r.Priority
  set nd : ℕ × LoadBalancerRule → Bool := fun p => !p.2.Disabled with hnd
  set i := l₁.length
  -- the two enumerations, decomposed
  have hE : (l₁ ++ x :: l₂).enum
      = List.enumFrom 0 l₁ ++ (i, x) :: List.enumFrom (i + 1) l₂ := by
    show List.enumFrom 0 (l₁ ++ x :: l₂) = _
    rw [List.enumFrom_append]
    simp [List.enumFrom]
  have hE' : (l₁ ++ l₂).enum = List.enumFrom 0 l₁ ++ List.enumFrom i l₂ := by
    show List.enumFrom 0 (l₁ ++ l₂) = _
    rw [List.enumFrom_append]
    simp
  -- reindexing the shorter enumeration gives the longer one minus the slot of x
  have hshift : ((l₁ ++ l₂).enum).map (idxShift i)
      = List.enumFrom 0 l₁ ++ List.enumFrom (i + 1) l₂ := by
    rw [hE', List.map_append, map_idxShift_enumFrom_of_le i l₁ 0 (by simp [i]),
      map_idxShift_enumFrom_of_ge i l₂ i (le_refl i)]
  -- the visible (non-disabled) entries coincide after reindexing
  have hfilter : ((l₁ ++ x :: l₂).enum).filter nd
      = (((l₁ ++ l₂).enum).filter nd).map (idxShift i) := by
    have hndx : nd (i, x) = false := by simp [hnd, hx]
    have hcomp : nd ∘ idxShift i = nd := rfl
    have hmf : (((l₁ ++ l₂).enum).filter nd).map (idxShift i)
        = (((l₁ ++ l₂).enum).map (idxShift i)).filter nd := by
      rw [List.filter_map (f := idxShift i), hcomp]
    rw [hE, List.filter_append, List.filter_cons, hndx, hmf, hshift, List.filter_append]
    simp
  -- push the disabled-filter through the sort and the reindexing through both
  have key : ∀ rs : List LoadBalancerRule,
      evalRules ctx base rs
        = scanRules ctx base
            ((List.insertionSort (lexLE fun r : LoadBalancerRule => r.Priority)
              ((rs.enum).filter nd)).map Prod.snd) := by
    intro rs
    show scanRules ctx base (evalOrder rs) = _
    rw [evalOrder, sortRules]
    rw [scanRules_filter_disabled]
    rw [List.filter_map (f := Prod.snd)]
    rw [show ((fun r : LoadBalancerRule => !r.Disabled) ∘ Prod.snd) = nd from rfl]
    rw [filter_insertionSort]
  rw [key, key, hfilter]
  rw [← map_insertionSort₂ (lexLE fun r : LoadBalancerRule => r.Priority)
    (lexLE fun r : LoadBalancerRule => r.Priority) (idxShift i)
    (fun a b => lexLE_idxShift _ i a b)]
  rw [List.map_map]
  rfl

/-- **C1.**  Rule evaluation visits the rule list in ascending order of
`priority`, breaking priority ties by original list index (the evaluation
order is a sorted permutation of the indexed rule list), and a rule whose
`disabled` flag is true is skipped entirely: removing it from the list
leaves the outcome unchanged, whatever its condition, overrides or flags. -/
theorem rules_eval_order_and_disabled_skipped (ctx : String → Bool) (base : LoadBalancer)
    (rs : List LoadBalancerRule) :
    (List.Sorted (lexLE fun r : LoadBalancerRule => r.Priority) (sortRules rs)
      ∧ (sortRules rs).Perm rs.enum)
    ∧ ∀ l₁ x l₂, x.Disabled = true →
        evalRules ctx base (l₁ ++ x :: l₂) = evalRules ctx base (l₁ ++ l₂) := by
  refine ⟨⟨List.sorted_insertionSort _ _, List.perm_insertionSort _ _⟩, ?_⟩
  intro l₁ x l₂ hx
  exact evalRules_erase_disabled ctx base l₁ x l₂ hx

/-- Concrete instantiation of C1: a disabled rule (with a true condition and
a fixed response!) sitting between two enabled rules has no effect. -/
theorem rules_eval_order_and_disabled_skipped_witness :
    evalRules (fun _ => true) zeroLB
        [mkRule "a" 1 "" false false none,
         mkRule "d" 0 "" true true (some ⟨"gone", 503, "", ""⟩),
         mkRule "b" 2 "" false false none]
      = evalRules (fun _ => true) zeroLB
        [mkRule "a" 1 "" false false none, mkRule "b" 2 "" false false none] :=
  (rules_eval_order_and_disabled_skipped (fun _ => true) zeroLB []).2
    [mkRule "a" 1 "" false false none]
    (mkRule "d" 0 "" true true (some ⟨"gone", 503, "", ""⟩))
    [mkRule "b" 2 "" false false none] rfl

theorem scanRules_append_no_stop (ctx : String → Bool) (l₁ : List LoadBalancerRule)
    (h : ∀ r ∈ l₁, r.Disabled = true ∨ ctx r.Condition = false
      ∨ (r.FixedResponse = none ∧ r.Terminates = false)) :
    ∀ (cfg : LoadBalancer) (rest : List LoadBalancerRule),
      scanRules ctx cfg (l₁ ++ rest) = scanRules ctx (mergeMatched ctx cfg l₁) rest := by
  induction l₁ with
  | nil => intro cfg rest; rfl
  | cons r t ih =>
    intro cfg rest
    have hr := h r (by simp)
    have ht : ∀ s ∈ t, s.Disabled = true ∨ ctx s.Condition = false
        ∨ (s.FixedResponse = none ∧ s.Terminates = false) :=
      fun s hs => h s (by simp [hs])
    rcases hr with hd | hc | ⟨hf, hterm⟩
    · have : mergeMatched ctx cfg (r :: t) = mergeMatched ctx cfg t := by
        simp [mergeMatched, hd]
      rw [this, List.cons_append]
      rw [show scanRules ctx cfg (r :: (t ++ rest)) = scanRules ctx cfg (t ++ rest) by
        simp [scanRules, hd]]
      exact ih ht cfg rest
    · by_cases hd : r.Disabled = true
      · have : mergeMatched ctx cfg (r :: t) = mergeMatched ctx cfg t := by
          simp [mergeMatched, hd]
        rw [this, List.cons_append]
        rw [show scanRules ctx cfg (r :: (t ++ rest)) = scanRules ctx cfg (t ++ rest) by
          simp [scanRules, hd]]
        exact ih ht cfg rest
      · have hd' : r.Disabled = false := by
          cases hb : r.Disabled
          · rfl
          · exact absurd hb hd
        have : mergeMatched ctx cfg (r :: t) = mergeMatched ctx cfg t := by
          simp [mergeMatched, hc]
        rw [this, List.cons_append]
        rw [show scanRules ctx cfg (r :: (t ++ rest)) = scanRules ctx cfg (t ++ rest) by
          simp [scanRules, hd', hc]]
        exact ih ht cfg rest
    · by_cases hd : r.Disabled = true
      · have : mergeMatched ctx cfg (r :: t) = mergeMatched ctx cfg t := by
          simp [mergeMatched, hd]
        rw [this, List.cons_append]
        rw [show scanRules ctx cfg (r :: (t ++ rest)) = scanRules ctx cfg (t ++ rest) by
          simp [scanRules, hd]]
        exact ih ht cfg rest
      · have hd' : r.Disabled = false := by
          cases hb : r.Disabled
          · rfl
          · exact absurd hb hd
        by_cases hc : ctx r.Condition = true
        · have : mergeMatched ctx cfg (r :: t)
              = mergeMatched ctx (applyOverrides cfg r.Overrides) t := by
            simp [mergeMatched, hd', hc]
          rw [this, List.cons_append]
          rw [show scanRules ctx cfg (r :: (t ++ rest))
              = scanRules ctx (applyOverrides cfg r.Overrides) (t ++ rest) by
            simp [scanRules, hd', hc, hf, hterm]]
          exact ih ht (applyOverrides cfg r.Overrides) rest
        · have hc' : ctx r.Condition = false := by
            cases hb : ctx r.Condition
            · rfl
            · exact absurd hb hc
          have : mergeMatched ctx cfg (r :: t) = mergeMatched ctx cfg t := by
            simp [mergeMatched, hc']
          rw [this, List.cons_append]
          rw [show scanRules ctx cfg (r :: (t ++ rest)) = scanRules ctx cfg (t ++ rest) by
            simp [scanRules, hd', hc']]
          exact ih ht cfg rest

/-- **C2.**  The first rule reached during evaluation that is not disabled,
whose condition holds and whose `fixed_response` is non-null ends the
evaluation with exactly that fixed response — pool selection never runs and
the rules after it in evaluation order (`l₂`, universally quantified) have
no influence on the result, so at most one rule's fixed response is
returned per request. -/
theorem rule_fixed_response_short_circuits (ctx : String → Bool) (base : LoadBalancer)
    (l₁ : List LoadBalancerRule) (x : LoadBalancerRule)
    (fr : LoadBalancerFixedResponseData)
    (hprev : ∀ r ∈ l₁, r.Disabled = true ∨ ctx r.Condition = false
      ∨ (r.FixedResponse = none ∧ r.Terminates = false))
    (hxd : x.Disabled = false) (hxc : ctx x.Condition = true)
    (hxf : x.FixedResponse = some fr) :
    ∀ (l₂ : List LoadBalancerRule) (rs : List LoadBalancerRule),
      evalOrder rs = l₁ ++ x :: l₂ →
      evalRules ctx base rs = RuleOutcome.fixedResponse fr := by
  intro l₂ rs hord
  show scanRules ctx base (evalOrder rs) = _
  rw [hord, scanRules_append_no_stop ctx l₁ hprev base (x :: l₂)]
  simp [scanRules, hxd, hxc, hxf]

/-- Concrete instantiation of C2: in original order the fixed-response rule
comes after a higher-priority rule; in evaluation order it is preceded by a
matching non-terminating rule and followed by a matching rule of higher
priority, and its fixed response is returned. -/
theorem rule_fixed_response_short_circuits_witness :
    evalRules (fun _ => true) zeroLB
        [mkRule "z" 3 "" false false none,
         mkRule "f" 2 "" false false (some ⟨"stop", 403, "text", "loc"⟩),
         mkRule "m" 1 "" false false none]
      = RuleOutcome.fixedResponse ⟨"stop", 403, "text", "loc"⟩ :=
  rule_fixed_response_short_circuits (fun _ => true) zeroLB
    [mkRule "m" 1 "" false false none]
    (mkRule "f" 2 "" false false (some ⟨"stop", 403, "text", "loc"⟩))
    ⟨"stop", 403, "text", "loc"⟩
    (by decide) rfl rfl rfl
    [mkRule "z" 3 "" false false none]
    [mkRule "z" 3 "" false false none,
     mkRule "f" 2 "" false false (some ⟨"stop", 403, "text", "loc"⟩),
     mkRule "m" 1 "" false false none]
    (by decide)

/-- **C3.**  Once a non-disabled rule with `terminates` set matches, the
outcome is `Terminated` with the effective configuration obtained by
merging, in evaluation order, the overrides of the matched rules up to and
including that rule — the rules after it in evaluation order (`l₂`,
universally quantified) leave the effective configuration unchanged. -/
theorem rule_terminates_freezes_configuration (ctx : String → Bool) (base : LoadBalancer)
    (l₁ : List LoadBalancerRule) (x : LoadBalancerRule)
    (hprev : ∀ r ∈ l₁, r.Disabled = true ∨ ctx r.Condition = false
      ∨ (r.FixedResponse = none ∧ r.Terminates = false))
    (hxd : x.Disabled = false) (hxc : ctx x.Condition = true)
    (hxf : x.FixedResponse = none) (hxt : x.Terminates = true) :
    ∀ (l₂ : List LoadBalancerRule) (rs : List LoadBalancerRule),
      evalOrder rs = l₁ ++ x :: l₂ →
      evalRules ctx base rs
        = RuleOutcome.terminated (applyOverrides (mergeMatched ctx base l₁) x.Overrides) := by
  intro l₂ rs hord
  show scanRules ctx base (evalOrder rs) = _
  rw [hord, scanRules_append_no_stop ctx l₁ hprev base (x :: l₂)]
  simp [scanRules, hxd, hxc, hxf, hxt]

/-- Concrete instantiation of C3: a matching terminating rule freezes the
configuration; the later rule in evaluation order plays no part. -/
theorem rule_terminates_freezes_configuration_witness :
    evalRules (fun _ => true) zeroLB
        [mkRule "z" 9 "" false false none,
         mkRule "t" 5 "" false true none,
         mkRule "m" 1 "" false false none]
      = RuleOutcome.terminated
          (applyOverrides
            (mergeMatched (fun _ => true) zeroLB [mkRule "m" 1 "" false false none])
            (mkRule "t" 5 "" false true none).Overrides) :=
  rule_terminates_freezes_configuration (fun _ => true) zeroLB
    [mkRule "m" 1 "" false false none]
    (mkRule "t" 5 "" false true none)
    (by decide) rfl rfl rfl rfl
    [mkRule "z" 9 "" false false none]
    [mkRule "z" 9 "" false false none,
     mkRule "t" 5 "" false true none,
     mkRule "m" 1 "" false false none]
    (by decide)

/-! ### Lemmas about the pool selector and the steering engine -/

theorem pickWeighted_mem : ∀ (l : List LoadBalancerOrigin) (r : ℚ) (o : LoadBalancerOrigin),
    pickWeighted r l = some o → o ∈ l := by
  intro l
  induction l with
  | nil => intro r o hc; simp [pickWeighted] at hc
  | cons a t ih =>
    intro r o hc
    by_cases h : r < a.Weight
    · simp [pickWeighted, h] at hc
      simp [hc]
    · simp only [pickWeighted, if_neg h] at hc
      exact List.mem_cons_of_mem a (ih _ o hc)

theorem pickWeighted_pos : ∀ (l : List LoadBalancerOrigin) (r : ℚ) (o : LoadBalancerOrigin),
    0 ≤ r → pickWeighted r l = some o → 0 < o.Weight := by
  intro l
  induction l with
  | nil => intro r o _ hc; simp [pickWeighted] at hc
  | cons a t ih =>
    intro r o hr hc
    by_cases h : r < a.Weight
    · simp [pickWeighted, h] at hc
      rw [← hc]
      exact lt_of_le_of_lt hr h
    · simp only [pickWeighted, if_neg h] at hc
      exact ih (r - a.Weight) o (by linarith [not_lt.mp h]) hc

theorem totalWeight_nonneg (l : List LoadBalancerOrigin)
    (h : ∀ c ∈ l, 0 ≤ c.Weight) : 0 ≤ totalWeight l := by
  induction l with
  | nil => simp [totalWeight]
  | cons a t ih =>
    have := h a (by simp)
    have ht := ih fun c hc => h c (by simp [hc])
    simp only [totalWeight, List.foldr_cons] at *
    linarith

theorem totalWeight_nonpos_all_zero (l : List LoadBalancerOrigin)
    (h : ∀ c ∈ l, 0 ≤ c.Weight) (hW : ¬ 0 < totalWeight l) :
    ∀ c ∈ l, c.Weight = 0 := by
  induction l with
  | nil => intro c hc; simp at hc
  | cons a t ih =>
    have ha := h a (by simp)
    have ht : ∀ c ∈ t, 0 ≤ c.Weight := fun c hc => h c (by simp [hc])
    have htw := totalWeight_nonneg t ht
    have hsum : totalWeight (a :: t) = a.Weight + totalWeight t := by
      simp [totalWeight]
    intro c hc
    rcases List.mem_cons.mp hc with rfl | hct
    · rw [hsum] at hW; linarith
    · exact ih ht (by rw [hsum] at hW; intro hpos; exact hW (by linarith)) c hct

theorem mem_healthyEnabled (h : HealthVerdict) (p : LoadBalancerPool)
    (o : LoadBalancerOrigin) (ho : o ∈ healthyEnabled h p) :
    o ∈ p.Origins ∧ o.Enabled = true ∧ h o.Name = true := by
  have := List.mem_filter.mp ho
  refine ⟨this.1, ?_, ?_⟩
  · exact (Bool.and_eq_true _ _ ▸ this.2).1
  · exact (Bool.and_eq_true _ _ ▸ this.2).2

theorem selectOrigin_of_no_healthy (h : HealthVerdict) (rng : ℚ) (p : LoadBalancerPool)
    (he : healthyEnabled h p = []) : selectOrigin h rng p = none := by
  unfold selectOrigin
  rw [he]
  by_cases hpol : (p.OriginSteering.getD ⟨""⟩).Policy = "order"
  · simp [hpol]
  · simp [hpol, totalWeight]

/-- **C4.**  The steering engine delegates to the pool selector at the first
eligible candidate pool; when every candidate pool is ineligible it hands
the request to the fallback pool with no eligibility check of its own, and
when that fallback pool has no healthy enabled origin the decision is the
terminal `NoHealthyOrigin` failure — never a fabricated selection. -/
theorem steering_first_eligible_and_fallback (h : HealthVerdict) (rng : ℚ)
    (fb : LoadBalancerPool) :
    (∀ (l₁ : List LoadBalancerPool) (p : LoadBalancerPool) (l₂ : List LoadBalancerPool),
      (∀ q ∈ l₁, eligible h q = false) → eligible h p = true →
      steerPools h rng (l₁ ++ p :: l₂) fb =
        match selectOrigin h rng p with
        | some o => Decision.selected p o
        | none => Decision.failed SteerFailure.noHealthyOrigin)
    ∧ (∀ cands : List LoadBalancerPool, (∀ p ∈ cands, eligible h p = false) →
        steerPools h rng cands fb =
          match selectOrigin h rng fb with
          | some o => Decision.selected fb o
          | none => Decision.failed SteerFailure.noHealthyOrigin)
    ∧ (∀ cands : List LoadBalancerPool, (∀ p ∈ cands, eligible h p = false) →
        healthyEnabled h fb = [] →
        steerPools h rng cands fb = Decision.failed SteerFailure.noHealthyOrigin) := by
  have hnone : ∀ cands : List LoadBalancerPool, (∀ p ∈ cands, eligible h p = false) →
      cands.find? (eligible h) = none := by
    intro cands hc
    rw [List.find?_eq_none]
    intro q hq
    simp [hc q hq]
  refine ⟨?_, ?_, ?_⟩
  · intro l₁ p l₂ h₁ hp
    unfold steerPools
    rw [List.find?_append, hnone l₁ h₁, Option.none_or, List.find?_cons_of_pos _ hp]
  · intro cands hc
    unfold steerPools
    rw [hnone cands hc]
  · intro cands hc hfb
    unfold steerPools
    rw [hnone cands hc, selectOrigin_of_no_healthy h rng fb hfb]

/-- Concrete instantiation of C4: one ineligible candidate pool, a fallback
pool whose origins are all unhealthy — the decision is the terminal
`NoHealthyOrigin` failure. -/
theorem steering_first_eligible_and_fallback_witness :
    steerPools (fun _ => false) 0
        [mkPool "A" 1 [mkOrigin "a1" true 1] none]
        (mkPool "F" 1 [mkOrigin "f1" true 1] none)
      = Decision.failed SteerFailure.noHealthyOrigin :=
  (steering_first_eligible_and_fallback (fun _ => false) 0
      (mkPool "F" 1 [mkOrigin "f1" true 1] none)).2.2
    [mkPool "A" 1 [mkOrigin "a1" true 1] none]
    (by decide) (by decide)

/-- **C5 counterexample.**  Under the explicit-order origin-steering policy
(`origin_steering.policy = "order"`), the pool selector returns the first
enabled healthy origin in listed order even when its weight is zero and
another origin carries positive weight — refuting the unconditional claim
that a weight-zero origin is never selected unless all weights are zero. -/
theorem pool_selector_zero_weight_counterexample :
    selectOrigin (fun _ => true) 0
        (mkPool "P" 1 [mkOrigin "z" true 0, mkOrigin "w" true 1] (some ⟨"order"⟩))
      = some (mkOrigin "z" true 0)
    ∧ (mkOrigin "z" true 0).Weight = 0
    ∧ (mkOrigin "z" true 0).Enabled = true
    ∧ (fun _ => true : HealthVerdict) (mkOrigin "z" true 0).Name = true
    ∧ ¬ (∀ c ∈ healthyEnabled (fun _ => true)
          (mkPool "P" 1 [mkOrigin "z" true 0, mkOrigin "w" true 1] (some ⟨"order"⟩)),
          c.Weight = 0) := by
  refine ⟨by decide, by decide, by decide, by decide, ?_⟩
  intro hall
  have := hall (mkOrigin "w" true 1) (by decide)
  revert this
  decide

/-- **C5 (amended).**  The pool selector never returns a disabled or
unhealthy origin, and — under the weighted origin-steering policy, i.e.
whenever the explicit-order policy is not configured — an origin of weight
zero is never selected unless every enabled healthy origin of the pool has
weight zero (the uniform fallback). -/
theorem pool_selector_healthy_and_weights (h : HealthVerdict) (rng : ℚ)
    (p : LoadBalancerPool) (o : LoadBalancerOrigin)
    (hnn : ∀ q ∈ p.Origins, 0 ≤ q.Weight)
    (hrng : 0 ≤ rng)
    (hsel : selectOrigin h rng p = some o) :
    (o ∈ p.Origins ∧ o.Enabled = true ∧ h o.Name = true)
    ∧ ((p.OriginSteering.getD ⟨""⟩).Policy ≠ "order" → o.Weight = 0 →
        ∀ c ∈ healthyEnabled h p, c.Weight = 0) := by
  have hmem : o ∈ healthyEnabled h p →
      o ∈ p.Origins ∧ o.Enabled = true ∧ h o.Name = true :=
    mem_healthyEnabled h p o
  unfold selectOrigin at hsel
  by_cases hpol : (p.OriginSteering.getD ⟨""⟩).Policy = "order"
  · rw [if_pos hpol] at hsel
    have ho : o ∈ healthyEnabled h p := by
      cases hcands : healthyEnabled h p with
      | nil => rw [hcands] at hsel; simp at hsel
      | cons a t =>
        rw [hcands] at hsel
        simp at hsel
        simp [hcands, hsel]
    exact ⟨hmem ho, fun hne => absurd hpol hne⟩
  · rw [if_neg hpol] at hsel
    have hnncands : ∀ c ∈ healthyEnabled h p, 0 ≤ c.Weight := by
      intro c hc
      exact hnn c (mem_healthyEnabled h p c hc).1
    by_cases hW : 0 < totalWeight (healthyEnabled h p)
    · rw [if_pos hW] at hsel
      have ho : o ∈ healthyEnabled h p := pickWeighted_mem _ _ _ hsel
      have hpos : 0 < o.Weight :=
        pickWeighted_pos _ _ _ (mul_nonneg hrng hW.le) hsel
      exact ⟨hmem ho, fun _ h0 => absurd (h0 ▸ hpos) (lt_irrefl 0)⟩
    · rw [if_neg hW] at hsel
      have ho : o ∈ healthyEnabled h p := List.get?_mem hsel
      exact ⟨hmem ho, fun _ _ => totalWeight_nonpos_all_zero _ hnncands hW⟩

/-- Concrete instantiation of the amended C5 at a weighted pool with a
single enabled healthy origin of weight one. -/
theorem pool_selector_healthy_and_weights_witness :
    ((mkOrigin "u" true 1 ∈ (mkPool "Q" 1 [mkOrigin "u" true 1] none).Origins
        ∧ (mkOrigin "u" true 1).Enabled = true
        ∧ (fun _ => true : HealthVerdict) (mkOrigin "u" true 1).Name = true)
      ∧ (((mkPool "Q" 1 [mkOrigin "u" true 1] none).OriginSteering.getD
            ⟨""⟩).Policy ≠ "order" →
          (mkOrigin "u" true 1).Weight = 0 →
          ∀ c ∈ healthyEnabled (fun _ => true) (mkPool "Q" 1 [mkOrigin "u" true 1] none),
            c.Weight = 0)) :=
  pool_selector_healthy_and_weights (fun _ => true) 0
    (mkPool "Q" 1 [mkOrigin "u" true 1] none) (mkOrigin "u" true 1)
    (by decide) (by norm_num)
    (by norm_num [selectOrigin, healthyEnabled, mkPool, mkOrigin, totalWeight, pickWeighted])

/-! ### Lemmas about the dynamic-latency candidate ordering -/

theorem swapName_involutive (a b : String) : Function.Involutive (swapName a b) := by
  intro s
  unfold swapName
  by_cases hsa : s = a
  · by_cases hab : b = a <;> simp [hsa, hab]
  · by_cases hsb : s = b
    · simp [hsa, hsb]
    · simp [hsa, hsb]

theorem swapRtt_eq_comp (rtt : String → ℚ) (a b : String) :
    swapRtt rtt a b = rtt ∘ swapName a b := by
  funext s
  unfold swapRtt swapName
  simp only [Function.comp_apply]
  split_ifs <;> rfl

theorem map_swapName_perm (pools : List String) (a b : String) (hnd : pools.Nodup)
    (ha : a ∈ pools) (hb : b ∈ pools) : (pools.map (swapName a b)).Perm pools := by
  rw [List.perm_iff_count]
  intro x
  have hinj := (swapName_involutive a b).injective
  conv_lhs => rw [show x = swapName a b (swapName a b x) from (swapName_involutive a b x).symm]
  rw [List.count_map_of_injective _ _ hinj]
  by_cases hxa : x = a
  · subst hxa
    have hsw : swapName x b x = b := by simp [swapName]
    rw [hsw, List.count_eq_one_of_mem hnd hb, List.count_eq_one_of_mem hnd ha]
  · by_cases hxb : x = b
    · subst hxb
      have hsw : swapName a x x = a := by
        by_cases hax : x = a <;> simp [swapName, hax]
      rw [hsw, List.count_eq_one_of_mem hnd ha, List.count_eq_one_of_mem hnd hb]
    · have hsw : swapName a b x = x := by simp [swapName, hxa, hxb]
      rw [hsw]

theorem dynamicLatencyOrder_perm (rtt : String → ℚ) (pools : List String) :
    (dynamicLatencyOrder rtt pools).Perm pools := by
  have h1 := (List.perm_insertionSort (lexLE rtt) pools.enum).map Prod.snd
  rw [List.enum_map_snd] at h1
  exact h1

theorem dynamicLatencyOrder_sorted_lt (rtt : String → ℚ) (pools : List String)
    (hnd : (pools.map rtt).Nodup) :
    List.Pairwise (fun s t => rtt s < rtt t) (dynamicLatencyOrder rtt pools) := by
  have hsorted : List.Sorted (lexLE rtt) (List.insertionSort (lexLE rtt) pools.enum) :=
    List.sorted_insertionSort _ _
  have hle : List.Pairwise (fun s t : String => rtt s ≤ rtt t)
      (dynamicLatencyOrder rtt pools) := by
    refine List.Pairwise.map Prod.snd ?_ hsorted
    intro u v huv
    rcases huv with hlt | ⟨heq, _⟩
    · exact hlt.le
    · exact heq.le
  have hperm : ((dynamicLatencyOrder rtt pools).map rtt).Perm (pools.map rtt) :=
    (dynamicLatencyOrder_perm rtt pools).map rtt
  have hnd' : ((dynamicLatencyOrder rtt pools).map rtt).Nodup := hperm.nodup_iff.mpr hnd
  have hne : List.Pairwise (fun s t : String => rtt s ≠ rtt t)
      (dynamicLatencyOrder rtt pools) := by
    have hp : List.Pairwise (fun x y : ℚ => x ≠ y)
        ((dynamicLatencyOrder rtt pools).map rtt) := hnd'
    exact List.pairwise_map.mp hp
  exact (hle.and hne).imp fun h => lt_of_le_of_ne h.1 h.2

theorem dynamicLatencyOrder_map_swap (rtt : String → ℚ) (pools : List String)
    (a b : String) :
    dynamicLatencyOrder rtt (pools.map (swapName a b))
      = (dynamicLatencyOrder (rtt ∘ swapName a b) pools).map (swapName a b) := by
  unfold dynamicLatencyOrder
  rw [List.enum_map]
  rw [← map_insertionSort₂ (lexLE (rtt ∘ swapName a b)) (lexLE rtt)
    (Prod.map id (swapName a b)) (fun x y => Iff.rfl) pools.enum]
  rw [List.map_map, List.map_map]
  rfl

/-- **C6 (amended).**  The `dynamic_latency` candidate order is the stable
ascending sort of the default pools by the given per-pool RTT assignment: the
order is sorted by RTT with priority ties broken by original index (so
pools with equal RTT keep their listed order) and is a permutation of the
pool list; and — provided all pools' RTT values are pairwise distinct —
exchanging the RTT values of two pools exchanges exactly those two pools'
places in the candidate order. -/
theorem dynamic_latency_stable_and_swap (rtt : String → ℚ) (pools : List String) :
    (List.Sorted (lexLE rtt) (List.insertionSort (lexLE rtt) pools.enum)
      ∧ (dynamicLatencyOrder rtt pools).Perm pools)
    ∧ ∀ a b, a ∈ pools → b ∈ pools → (pools.map rtt).Nodup →
        dynamicLatencyOrder (swapRtt rtt a b) pools
          = (dynamicLatencyOrder rtt pools).map (swapName a b) := by
  refine ⟨⟨List.sorted_insertionSort _ _, dynamicLatencyOrder_perm rtt pools⟩, ?_⟩
  intro a b ha hb hnd
  have hndp : pools.Nodup := List.Nodup.of_map rtt hnd
  have hperm : (pools.map (swapName a b)).Perm pools :=
    map_swapName_perm pools a b hndp ha hb
  have hnd2 : ((pools.map (swapName a b)).map rtt).Nodup := (hperm.map rtt).nodup_iff.mpr hnd
  have hs1 := dynamicLatencyOrder_sorted_lt rtt pools hnd
  have hs2 := dynamicLatencyOrder_sorted_lt rtt (pools.map (swapName a b)) hnd2
  haveI : IsAntisymm String (fun s t => rtt s < rtt t) :=
    ⟨fun s t h1 h2 => absurd (h1.trans h2) (lt_irrefl _)⟩
  have hpp : (dynamicLatencyOrder rtt (pools.map (swapName a b))).Perm
      (dynamicLatencyOrder rtt pools) :=
    ((dynamicLatencyOrder_perm rtt _).trans hperm).trans
      (dynamicLatencyOrder_perm rtt pools).symm
  have heq : dynamicLatencyOrder rtt (pools.map (swapName a b))
      = dynamicLatencyOrder rtt pools :=
    List.eq_of_perm_of_sorted hpp hs2 hs1
  rw [swapRtt_eq_comp]
  have h3 := dynamicLatencyOrder_map_swap rtt pools a b
  rw [heq] at h3
  rw [h3, List.map_map]
  rw [show swapName a b ∘ swapName a b = id from funext (swapName_involutive a b)]
  simp

/-- **C6 counterexample.**  With a tie present (`a` and `c` share RTT 1,
`b` has RTT 2), exchanging the RTT values of `a` and `b` does not merely
exchange their positions: `b` lands at position 1, not at `a`'s old
position 0 (the tied pool `c` moves instead), refuting the unconditional
swap claim. -/
theorem dynamic_latency_swap_counterexample :
    dynamicLatencyOrder (fun s => if s = "b" then 2 else 1) ["a", "c", "b"]
      = ["a", "c", "b"]
    ∧ dynamicLatencyOrder
        (swapRtt (fun s => if s = "b" then 2 else 1) "a" "b") ["a", "c", "b"]
      = ["c", "b", "a"]
    ∧ List.indexOf "b"
        (dynamicLatencyOrder
          (swapRtt (fun s => if s = "b" then 2 else 1) "a" "b") ["a", "c", "b"])
      ≠ List.indexOf "a"
        (dynamicLatencyOrder (fun s => if s = "b" then 2 else 1) ["a", "c", "b"]) :=
  ⟨by decide, by decide, by decide⟩

/-- Concrete instantiation of the amended C6: with pairwise-distinct RTTs,
exchanging the RTT values of two pools transposes exactly those pools. -/
theorem dynamic_latency_stable_and_swap_witness :
    dynamicLatencyOrder
        (swapRtt (fun s => if s = "a" then 1 else if s = "b" then 2 else 3) "a" "b")
        ["a", "b", "c"]
      = (dynamicLatencyOrder (fun s => if s = "a" then 1 else if s = "b" then 2 else 3)
          ["a", "b", "c"]).map (swapName "a" "b") :=
  (dynamic_latency_stable_and_swap
      (fun s => if s = "a" then 1 else if s = "b" then 2 else 3) ["a", "b", "c"]).2
    "a" "b" (by decide) (by decide) (by decide)

/-- **C7.**  For a pin bound at time `t` with time-to-live `ttl`: resolving
more than `ttl` seconds later yields `None`; after `drain(origin)` under
`zero_downtime_failover = "none"` the pin is invalid at any later resolve;
under `"sticky"` a drained, unexpired pin stays resolvable until
`drain_duration` seconds have elapsed since the drain. -/
theorem session_pin_ttl_and_drain (attrs : SessionAffinityAttributes)
    (pool origin : String) (t ttl td now : ℤ) :
    (t + ttl < now →
      SessionPin.resolve attrs now (SessionPin.bindPin pool origin t ttl) = none)
    ∧ (attrs.ZeroDowntimeFailover = "none" →
        SessionPin.resolve attrs now
          (SessionPin.drain origin td (SessionPin.bindPin pool origin t ttl)) = none)
    ∧ (attrs.ZeroDowntimeFailover = "sticky" → now ≤ t + ttl →
        now ≤ td + attrs.DrainDuration →
        SessionPin.resolve attrs now
          (SessionPin.drain origin td (SessionPin.bindPin pool origin t ttl))
          = some (SessionPin.drain origin td (SessionPin.bindPin pool origin t ttl))) := by
  refine ⟨?_, ?_, ?_⟩
  · intro hexp
    unfold SessionPin.resolve SessionPin.bindPin
    simp only []
    rw [if_pos hexp]
  · intro hzdf
    unfold SessionPin.resolve SessionPin.drain SessionPin.bindPin
    simp [hzdf]
  · intro hzdf hne hdd
    unfold SessionPin.resolve SessionPin.drain SessionPin.bindPin
    simp [hzdf, not_lt.mpr hne, not_lt.mpr hdd]

/-- Concrete instantiation of C7: a drained pin under the `"none"`
zero-downtime-failover policy resolves to nothing. -/
theorem session_pin_ttl_and_drain_witness :
    SessionPin.resolve ⟨"", "", 30, "none"⟩ 20
        (SessionPin.drain "o" 5 (SessionPin.bindPin "p" "o" 0 60)) = none :=
  (session_pin_ttl_and_drain ⟨"", "", 30, "none"⟩ "p" "o" 0 60 5 20).2.1 rfl

/-- **C8.**  Every pool and monitor operation (create, list, get, update,
delete, pool health) called with a zone-level resource container, and every
load balancer operation called with a non-zone resource container, returns
the invalid-resource-container error with the Go zero value of its result
type and issues no HTTP request. -/
theorem resource_container_level_guards (t : Transport) (rc rcz : ResourceContainer)
    (p1 : CreateLoadBalancerPoolParams) (p2 : ListLoadBalancerPoolParams)
    (p3 : UpdateLoadBalancerPoolParams) (m1 : CreateLoadBalancerMonitorParams)
    (m2 : ListLoadBalancerMonitorParams) (m3 : UpdateLoadBalancerMonitorParams)
    (b1 : CreateLoadBalancerParams) (b2 : ListLoadBalancerParams)
    (b3 : UpdateLoadBalancerParams) (poolID monitorID lbID : String)
    (hz : rcz.Level = RouteLevel.zone) (hnz : rc.Level ≠ RouteLevel.zone) :
    (CreateLoadBalancerPool t rcz p1
        = ((zeroPool, some (.invalidResourceContainerAccess .zone)), [])
      ∧ ListLoadBalancerPools t rcz p2
        = (([], some (.invalidResourceContainerAccess .zone)), [])
      ∧ GetLoadBalancerPool t rcz poolID
        = ((zeroPool, some (.invalidResourceContainerAccess .zone)), [])
      ∧ DeleteLoadBalancerPool t rcz poolID
        = (((), some (.invalidResourceContainerAccess .zone)), [])
      ∧ UpdateLoadBalancerPool t rcz p3
        = ((zeroPool, some (.invalidResourceContainerAccess .zone)), [])
      ∧ GetLoadBalancerPoolHealth t rcz poolID
        = ((zeroPoolHealth, some (.invalidResourceContainerAccess .zone)), [])
      ∧ CreateLoadBalancerMonitor t rcz m1
        = ((zeroMonitor, some (.invalidResourceContainerAccess .zone)), [])
      ∧ ListLoadBalancerMonitors t rcz m2
        = (([], some (.invalidResourceContainerAccess .zone)), [])
      ∧ GetLoadBalancerMonitor t rcz monitorID
        = ((zeroMonitor, some (.invalidResourceContainerAccess .zone)), [])
      ∧ DeleteLoadBalancerMonitor t rcz monitorID
        = (((), some (.invalidResourceContainerAccess .zone)), [])
      ∧ UpdateLoadBalancerMonitor t rcz m3
        = ((zeroMonitor, some (.invalidResourceContainerAccess .zone)), []))
    ∧ (CreateLoadBalancer t rc b1
        = ((zeroLB, some (.invalidResourceContainerAccess rc.Level)), [])
      ∧ ListLoadBalancers t rc b2
        = (([], some (.invalidResourceContainerAccess rc.Level)), [])
      ∧ GetLoadBalancer t rc lbID
        = ((zeroLB, some (.invalidResourceContainerAccess rc.Level)), [])
      ∧ DeleteLoadBalancer t rc lbID
        = (((), some (.invalidResourceContainerAccess rc.Level)), [])
      ∧ UpdateLoadBalancer t rc b3
        = ((zeroLB, some (.invalidResourceContainerAccess rc.Level)), [])) := by
  constructor
  · exact ⟨by simp [CreateLoadBalancerPool, hz], by simp [ListLoadBalancerPools, hz],
      by simp [GetLoadBalancerPool, hz], by simp [DeleteLoadBalancerPool, hz],
      by simp [UpdateLoadBalancerPool, hz], by simp [GetLoadBalancerPoolHealth, hz],
      by simp [CreateLoadBalancerMonitor, hz], by simp [ListLoadBalancerMonitors, hz],
      by simp [GetLoadBalancerMonitor, hz], by simp [DeleteLoadBalancerMonitor, hz],
      by simp [UpdateLoadBalancerMonitor, hz]⟩
  · exact ⟨by simp [CreateLoadBalancer, hnz], by simp [ListLoadBalancers, hnz],
      by simp [GetLoadBalancer, hnz], by simp [DeleteLoadBalancer, hnz],
      by simp [UpdateLoadBalancer, hnz]⟩

/-- Concrete instantiation of C8: a pool read at zone level and a load
balancer read at account level are both rejected with no request issued. -/
theorem resource_container_level_guards_witness :
    GetLoadBalancerPool (fun _ => .failure) ⟨RouteLevel.zone, "z"⟩ "pid"
        = ((zeroPool, some (ClientError.invalidResourceContainerAccess .zone)), [])
    ∧ GetLoadBalancer (fun _ => .failure) ⟨RouteLevel.account, "a"⟩ "lbid"
        = ((zeroLB, some (ClientError.invalidResourceContainerAccess .account)), []) :=
  ⟨(resource_container_level_guards (fun _ => .failure)
      ⟨RouteLevel.account, "a"⟩ ⟨RouteLevel.zone, "z"⟩
      ⟨zeroPool⟩ ⟨⟨0, 0⟩⟩ ⟨zeroPool⟩ ⟨zeroMonitor⟩ ⟨⟨0, 0⟩⟩ ⟨zeroMonitor⟩
      ⟨zeroLB⟩ ⟨⟨0, 0⟩⟩ ⟨zeroLB⟩ "pid" "mid" "lbid" rfl (by decide)).1.2.2.1,
   (resource_container_level_guards (fun _ => .failure)
      ⟨RouteLevel.account, "a"⟩ ⟨RouteLevel.zone, "z"⟩
      ⟨zeroPool⟩ ⟨⟨0, 0⟩⟩ ⟨zeroPool⟩ ⟨zeroMonitor⟩ ⟨⟨0, 0⟩⟩ ⟨zeroMonitor⟩
      ⟨zeroLB⟩ ⟨⟨0, 0⟩⟩ ⟨zeroLB⟩ "pid" "mid" "lbid" rfl (by decide)).2.2.2.1⟩

/-- **C9 counterexample.**  An empty pool ID does not by itself produce the
sentinel error: with a zone-level resource container the level guard runs
first, so `GetLoadBalancerPool` with an empty ID returns the
invalid-resource-container error, not `ErrMissingPoolID` — refuting the
claim as stated for arbitrary resource containers. -/
theorem missing_id_counterexample :
    GetLoadBalancerPool (fun _ => .failure) ⟨RouteLevel.zone, "z"⟩ ""
        = ((zeroPool, some (ClientError.invalidResourceContainerAccess .zone)), [])
    ∧ (GetLoadBalancerPool (fun _ => .failure) ⟨RouteLevel.zone, "z"⟩ "").1.2
        ≠ some ClientError.missingPoolID := by
  refine ⟨by decide, by decide⟩

/-- **C9 (amended).**  For every get, delete or update operation taking a
resource identifier, called with a resource container of the level the
operation accepts (non-zone for pool and monitor operations, zone for load
balancer operations), an empty ID string yields the corresponding sentinel
error (`ErrMissingPoolID`, `ErrMissingMonitorID`, `ErrMissingLoadBalancerID`)
with the Go zero value of the result type and no HTTP request; with a
container of the wrong level the invalid-resource-container error takes
precedence. -/
theorem missing_id_guards (t : Transport) (rc rcz : ResourceContainer)
    (hnz : rc.Level ≠ RouteLevel.zone) (hz : rcz.Level = RouteLevel.zone)
    (pu : UpdateLoadBalancerPoolParams) (mu : UpdateLoadBalancerMonitorParams)
    (bu : UpdateLoadBalancerParams)
    (hpu : pu.LoadBalancer.ID = "") (hmu : mu.LoadBalancerMonitor.ID = "")
    (hbu : bu.LoadBalancer.ID = "") :
    (GetLoadBalancerPool t rc "" = ((zeroPool, some .missingPoolID), [])
      ∧ DeleteLoadBalancerPool t rc "" = (((), some .missingPoolID), [])
      ∧ UpdateLoadBalancerPool t rc pu = ((zeroPool, some .missingPoolID), [])
      ∧ GetLoadBalancerPoolHealth t rc "" = ((zeroPoolHealth, some .missingPoolID), [])
      ∧ GetLoadBalancerMonitor t rc "" = ((zeroMonitor, some .missingMonitorID), [])
      ∧ DeleteLoadBalancerMonitor t rc "" = (((), some .missingMonitorID), [])
      ∧ UpdateLoadBalancerMonitor t rc mu = ((zeroMonitor, some .missingMonitorID), []))
    ∧ (GetLoadBalancer t rcz "" = ((zeroLB, some .missingLoadBalancerID), [])
      ∧ DeleteLoadBalancer t rcz "" = (((), some .missingLoadBalancerID), [])
      ∧ UpdateLoadBalancer t rcz bu = ((zeroLB, some .missingLoadBalancerID), [])) := by
  constructor
  · exact ⟨by simp [GetLoadBalancerPool, hnz], by simp [DeleteLoadBalancerPool, hnz],
      by simp [UpdateLoadBalancerPool, hnz, hpu],
      by simp [GetLoadBalancerPoolHealth, hnz],
      by simp [GetLoadBalancerMonitor, hnz], by simp [DeleteLoadBalancerMonitor, hnz],
      by simp [UpdateLoadBalancerMonitor, hnz, hmu]⟩
  · exact ⟨by simp [GetLoadBalancer, hz], by simp [DeleteLoadBalancer, hz],
      by simp [UpdateLoadBalancer, hz, hbu]⟩

/-- Concrete instantiation of the amended C9: pool read at user level and
load balancer read at zone level, both with empty IDs, return the sentinel
errors without issuing a request. -/
theorem missing_id_guards_witness :
    GetLoadBalancerPool (fun _ => .failure) ⟨RouteLevel.user, "u"⟩ ""
        = ((zeroPool, some ClientError.missingPoolID), [])
    ∧ GetLoadBalancer (fun _ => .failure) ⟨RouteLevel.zone, "z"⟩ ""
        = ((zeroLB, some ClientError.missingLoadBalancerID), []) :=
  ⟨(missing_id_guards (fun _ => .failure) ⟨RouteLevel.user, "u"⟩ ⟨RouteLevel.zone, "z"⟩
      (by decide) rfl ⟨zeroPool⟩ ⟨zeroMonitor⟩ ⟨zeroLB⟩ rfl rfl rfl).1.1,
   (missing_id_guards (fun _ => .failure) ⟨RouteLevel.user, "u"⟩ ⟨RouteLevel.zone, "z"⟩
      (by decide) rfl ⟨zeroPool⟩ ⟨zeroMonitor⟩ ⟨zeroLB⟩ rfl rfl rfl).2.1⟩

/-- **C10.**  Applying a rule's overrides never changes the load balancer's
`drain_duration`: the override attribute type carries only samesite, secure
and zero-downtime-failover, and the merge inherits `DrainDuration` from the
base attributes unchanged. -/
theorem rule_overrides_preserve_drain_duration (cfg : LoadBalancer)
    (o : LoadBalancerRuleOverrides) (base : Option SessionAffinityAttributes)
    (a : LoadBalancerRuleOverridesSessionAffinityAttrs) :
    (applyOverrides cfg o).drainDuration = cfg.drainDuration
    ∧ (applySessionAffinityAttrs base a).DrainDuration
        = (base.getD ⟨"", "", 0, ""⟩).DrainDuration := by
  constructor
  · unfold LoadBalancer.drainDuration
    cases ho : o.SessionAffinityAttrs with
    | none => simp [applyOverrides, ho]
    | some a' =>
      simp only [applyOverrides, ho]
      cases cfg.SessionAffinityAttributes <;> simp [applySessionAffinityAttrs]
  · rfl
